import Mathlib

/-!
Shallow embedding of the TimeHarp 260 PCIe kernel driver (th260pcie.c):
register offsets, the DMA trigger path, the blocking read loop, mmap and its
release hook, the interrupt bridge loop, probe (attach), ioctl and remove
(detach).  Machine integers are modelled as Nat with explicit reduction
mod 2^32 at the points where a 32-bit overflow could occur; register traffic
is modelled as explicit lists of (offset, value) writes; the hardware and
kernel environment (register read values, allocation success, wait outcomes)
is passed in as oracles.
-/

/-- Register offset DCR_OFFSET (0x0) from th260pcie.c. -/
def DCR_OFFSET : Nat := 0

/-- Register offset DCSR_OFFSET (0x4). -/
def DCSR_OFFSET : Nat := 4

/-- Register offset WRITE_ADDR_OFFSET (0x8). -/
def WRITE_ADDR_OFFSET : Nat := 8

/-- Register offset WRITE_SIZE_OFFSET (0xC). -/
def WRITE_SIZE_OFFSET : Nat := 12

/-- Register offset WRITE_COUNT_OFFSET (0x10). -/
def WRITE_COUNT_OFFSET : Nat := 16

/-- Completion status bit BUSMASTERED_READ_DONE (0x100). -/
def BUSMASTERED_READ_DONE : Nat := 256

/-- BAR_0_LEN, the register window size. -/
def BAR_0_LEN : Nat := 65536

/-- PAGE_SIZE on the x86 targets the driver is built for. -/
def PAGE_SIZE : Nat := 4096

/-- PAGE_ALIGN rounds up to a multiple of PAGE_SIZE. -/
def PAGE_ALIGN (n : Nat) : Nat := (n + (PAGE_SIZE - 1)) / PAGE_SIZE * PAGE_SIZE

/-- BUFFER_SIZE(ord) = 1UL << (ord + PAGE_SHIFT), PAGE_SHIFT = 12. -/
def BUFFER_SIZE (ord : Nat) : Nat := 2 ^ (ord + 12)

/-- Errno value EINTR. -/
def EINTR : Nat := 4

/-- Errno value EAGAIN, the would-block code. -/
def EAGAIN : Nat := 11

/-- Errno value EACCES. -/
def EACCES : Nat := 13

/-- Errno value EFAULT. -/
def EFAULT : Nat := 14

/-- Errno value EBUSY. -/
def EBUSY : Nat := 16

/-- Errno value EINVAL. -/
def EINVAL : Nat := 22

/-- One step per halving of the TLP size in th260_dma_start.  The C loop
`while(rest && tlpsize > 2) { tlpsize >>= 1; ... }` strictly halves
tlpsize, so it runs fewer than `tlpsize` iterations; the fuel argument
starts at the initial tlpsize and is therefore never exhausted. -/
def finalTlpSizeAux (ndwords : Nat) : Nat → Nat → Nat
  | 0, tlpsize => tlpsize
  | fuel + 1, tlpsize =>
    if ndwords % tlpsize ≠ 0 ∧ 2 < tlpsize then
      finalTlpSizeAux ndwords fuel (tlpsize / 2)
    else tlpsize

/-- Final TLP size reached by the halving loop of th260_dma_start. -/
def finalTlpSize (ndwords tlpsize : Nat) : Nat := finalTlpSizeAux ndwords tlpsize tlpsize

/-- TLP size programmed by th260_dma_start for a transfer of dmacount bytes
(ndwords = dmacount / 4, starting from the maximum TLP size of the card). -/
def dmaTlp (maxtlpsize dmacount : Nat) : Nat := finalTlpSize (dmacount / 4) maxtlpsize

/-- TLP count that goes with dmaTlp: ndwords / tlpsize. -/
def dmaTlpCount (maxtlpsize dmacount : Nat) : Nat :=
  dmacount / 4 / dmaTlp maxtlpsize dmacount

/-- th260_dma_start, modelled as the list of (offset, value) register writes
it performs: the initial DCR reset pulse, then either nothing more (transfer
rejected on tlpcount > 0xFFFF or on the odd-size check) or the three
descriptor writes followed by the DCSR enable write.  The odd-size check
`pcard->dmacount != tlpsize * 4 * tlpcount` is a u32 comparison, hence the
reduction mod 2^32 on both sides. -/
def th260_dma_start (maxtlpsize dmacount phys : Nat) : List (Nat × Nat) :=
  let pre : List (Nat × Nat) := [(DCR_OFFSET, 1), (DCR_OFFSET, 0)]
  let tlpsize := dmaTlp maxtlpsize dmacount
  let tlpcount := dmaTlpCount maxtlpsize dmacount
  if 65535 < tlpcount then pre
  else if dmacount % 2 ^ 32 ≠ (tlpsize * 4 * tlpcount) % 2 ^ 32 then pre
  else
    pre ++ [(WRITE_ADDR_OFFSET, phys % 2 ^ 32), (WRITE_SIZE_OFFSET, tlpsize),
            (WRITE_COUNT_OFFSET, tlpcount), (DCSR_OFFSET, 1)]

theorem finalTlpSizeAux_le (ndwords : Nat) :
    ∀ fuel tlpsize, finalTlpSizeAux ndwords fuel tlpsize ≤ tlpsize := by
  intro fuel
  induction fuel with
  | zero => intro t; exact le_refl t
  | succ f ih =>
    intro t
    simp only [finalTlpSizeAux]
    split
    · exact le_trans (ih (t / 2)) (Nat.div_le_self t 2)
    · exact le_refl t

theorem finalTlpSize_le (ndwords tlpsize : Nat) :
    finalTlpSize ndwords tlpsize ≤ tlpsize := finalTlpSizeAux_le ndwords tlpsize tlpsize

/-- Claim C1: for every positive byte count that is a multiple of 4 and at
most the DMA-buffer capacity, th260_dma_start either programs a pair
(tlpsize, tlpcount) with tlpsize * 4 * tlpcount = byteCount and
tlpcount ≤ 65535 into the source-address, TLP-size and TLP-count registers
and sets the enable bit, or, when the final pair of the halving search
violates either condition, performs no write beyond the reset pulse. -/
theorem dma_start_pair_or_reject (maxtlpsize dmacount phys order : Nat)
    (hpos : 0 < dmacount) (hmul : dmacount % 4 = 0)
    (hcap : dmacount ≤ BUFFER_SIZE order) (hord : order ≤ 7)
    (hlo : 32 ≤ maxtlpsize) (hhi : maxtlpsize ≤ 4096) :
    (dmaTlp maxtlpsize dmacount * 4 * dmaTlpCount maxtlpsize dmacount = dmacount ∧
      dmaTlpCount maxtlpsize dmacount ≤ 65535 ∧
      th260_dma_start maxtlpsize dmacount phys =
        [(DCR_OFFSET, 1), (DCR_OFFSET, 0), (WRITE_ADDR_OFFSET, phys % 2 ^ 32),
         (WRITE_SIZE_OFFSET, dmaTlp maxtlpsize dmacount),
         (WRITE_COUNT_OFFSET, dmaTlpCount maxtlpsize dmacount), (DCSR_OFFSET, 1)]) ∨
    ((65535 < dmaTlpCount maxtlpsize dmacount ∨
      dmaTlp maxtlpsize dmacount * 4 * dmaTlpCount maxtlpsize dmacount ≠ dmacount) ∧
      th260_dma_start maxtlpsize dmacount phys = [(DCR_OFFSET, 1), (DCR_OFFSET, 0)]) := by
  have hdm : dmacount < 2 ^ 32 := by
    have h1 : BUFFER_SIZE order ≤ BUFFER_SIZE 7 := by
      unfold BUFFER_SIZE
      exact Nat.pow_le_pow_right (by omega) (by omega)
    have h2 : BUFFER_SIZE 7 < 2 ^ 32 := by norm_num [BUFFER_SIZE]
    omega
  by_cases hc : 65535 < dmaTlpCount maxtlpsize dmacount
  · refine Or.inr ⟨Or.inl hc, ?_⟩
    simp [th260_dma_start, hc]
  · have htle : dmaTlp maxtlpsize dmacount ≤ 4096 :=
      le_trans (finalTlpSize_le _ _) hhi
    have hprod : dmaTlp maxtlpsize dmacount * 4 * dmaTlpCount maxtlpsize dmacount < 2 ^ 32 := by
      have hcle := Nat.not_lt.mp hc
      calc dmaTlp maxtlpsize dmacount * 4 * dmaTlpCount maxtlpsize dmacount
          ≤ 4096 * 4 * 65535 :=
            Nat.mul_le_mul (Nat.mul_le_mul htle (le_refl 4)) hcle
        _ < 2 ^ 32 := by norm_num

    by_cases heq : dmacount % 2 ^ 32 =
        (dmaTlp maxtlpsize dmacount * 4 * dmaTlpCount maxtlpsize dmacount) % 2 ^ 32
    · have heq2 : dmaTlp maxtlpsize dmacount * 4 * dmaTlpCount maxtlpsize dmacount = dmacount := by
        rw [Nat.mod_eq_of_lt hdm, Nat.mod_eq_of_lt hprod] at heq
        omega
      refine Or.inl ⟨heq2, Nat.not_lt.mp hc, ?_⟩
      simp [th260_dma_start, hc]
      simpa using heq
    · refine Or.inr ⟨Or.inr ?_, ?_⟩
      · intro hcon
        exact heq (by rw [hcon])
      · simp [th260_dma_start, hc]
        simpa using heq

/-- Concrete run of dma_start_pair_or_reject: maxtlpsize 32, byte count 128
resolves to TLP size 32, TLP count 1 and programs the descriptor. -/
theorem dma_start_pair_or_reject_witness :
    (dmaTlp 32 128 * 4 * dmaTlpCount 32 128 = 128 ∧
      dmaTlpCount 32 128 ≤ 65535 ∧
      th260_dma_start 32 128 0 =
        [(DCR_OFFSET, 1), (DCR_OFFSET, 0), (WRITE_ADDR_OFFSET, 0 % 2 ^ 32),
         (WRITE_SIZE_OFFSET, dmaTlp 32 128), (WRITE_COUNT_OFFSET, dmaTlpCount 32 128),
         (DCSR_OFFSET, 1)]) ∨
    ((65535 < dmaTlpCount 32 128 ∨ dmaTlp 32 128 * 4 * dmaTlpCount 32 128 ≠ 128) ∧
      th260_dma_start 32 128 0 = [(DCR_OFFSET, 1), (DCR_OFFSET, 0)]) :=
  dma_start_pair_or_reject 32 128 0 7 (by decide) (by decide) (by decide) (by decide)
    (by decide) (by decide)

/-- Per-card DMA accounting shared between th260_read and the interrupt
handler: bytes_done and dmacount fields of struct th260_cdev. -/
structure Card where
  bytesDone : Nat
  dmacount : Nat
deriving DecidableEq

/-- Outcome of one wait_event_interruptible_timeout call in th260_read:
the wait timed out with no completion interrupt, the completion interrupt
arrived (and a signal may additionally be pending at the later
signal_pending check), or a signal aborted the wait before completion. -/
inductive WaitOutcome
  | timeout
  | completed (sig : Bool)
  | signaled
deriving DecidableEq

/-- Result of a read call: a byte count, a negative errno (carried as the
positive errno value), or divergence (the loop never returns, which cannot
happen in the scenarios the driver runs but makes the model total). -/
inductive ReadResult
  | ok (n : Nat)
  | error (e : Nat)
  | stuck
deriving DecidableEq

/-- The do/while body of th260_read.  One outer iteration zeroes bytes_done,
sets dmacount = MIN(count, buffer capacity), triggers the DMA and blocks on
the wait queue; the inner `while (pcard->dmacount)` body always either
returns or breaks, so each outer iteration consumes exactly one wait
outcome.  The result carries the returned value, the list of chunk sizes
handed to th260_dma_start, and the final card accounting state.  If the
chunk size is 0 the C loop would spin forever without waiting, which the
model reports as stuck. -/
def th260_read_loop (cap : Nat) (copyOk : Bool) (total count : Nat) (card : Card) :
    List WaitOutcome → ReadResult × List Nat × Card
  | [] => (ReadResult.stuck, [], card)
  | o :: rest =>
    let chunk := min count cap
    let card1 : Card := ⟨0, chunk⟩
    if chunk = 0 then (ReadResult.stuck, [], card1)
    else
      match o with
      | WaitOutcome.timeout => (ReadResult.error EINTR, [chunk], card1)
      | WaitOutcome.signaled =>
        let ret := total + card1.bytesDone
        (if ret = 0 then ReadResult.error EINTR else ReadResult.ok ret, [chunk], card1)
      | WaitOutcome.completed sig =>
        let card2 : Card := ⟨card1.bytesDone + card1.dmacount, 0⟩
        if card2.bytesDone ≠ 0 ∧ copyOk = false then (ReadResult.error EFAULT, [chunk], card2)
        else if sig then
          let ret := total + card2.bytesDone
          (if ret = 0 then ReadResult.error EINTR else ReadResult.ok ret, [chunk], card2)
        else
          let total2 := total + card2.bytesDone
          let count2 := count - card2.bytesDone
          if 0 < count2 then
            let r := th260_read_loop cap copyOk total2 count2 card2 rest
            (r.1, chunk :: r.2.1, r.2.2)
          else (ReadResult.ok total2, [chunk], card2)

/-- th260_read: returns 0 at once for count 0, rejects O_NONBLOCK callers
with EFAULT before the access_ok check, rejects an unwritable destination
with EFAULT, and otherwise runs the chunk loop.  cap is
BUFFER_SIZE(dmabuf_order); accessOk models _access_ok on the caller buffer
and copyOk models copy_to_user succeeding. -/
def th260_read (cap : Nat) (nonblock accessOk copyOk : Bool) (count : Nat)
    (outcomes : List WaitOutcome) (card : Card) : ReadResult × List Nat × Card :=
  if count = 0 then (ReadResult.ok 0, [], card)
  else if nonblock = true then (ReadResult.error EFAULT, [], card)
  else if accessOk = false then (ReadResult.error EFAULT, [], card)
  else th260_read_loop cap copyOk 0 count card outcomes

/-- Claim C2 (amended): when the first chunk of a read call times out,
th260_read returns -EINTR, the very same errno it returns for a signal that
cancels the wait before any progress; the driver has no distinct timeout
error code. -/
theorem read_timeout_returns_eintr (cap count : Nat) (ck : Bool)
    (rest : List WaitOutcome) (card : Card) (hcap : 0 < cap) (hcount : 0 < count) :
    th260_read cap false true ck count (WaitOutcome.timeout :: rest) card
      = (ReadResult.error EINTR, [min count cap], ⟨0, min count cap⟩) ∧
    th260_read cap false true ck count (WaitOutcome.signaled :: rest) card
      = (ReadResult.error EINTR, [min count cap], ⟨0, min count cap⟩) := by
  have hchunk : min count cap ≠ 0 := by
    have := lt_min_iff.mpr ⟨hcount, hcap⟩
    omega
  constructor
  · simp [th260_read, th260_read_loop, Nat.pos_iff_ne_zero.mp hcount, hchunk]
  · simp [th260_read, th260_read_loop, Nat.pos_iff_ne_zero.mp hcount, hchunk]

/-- Concrete run of read_timeout_returns_eintr with capacity 4096 and a
4-byte read. -/
theorem read_timeout_returns_eintr_witness :
    th260_read 4096 false true true 4 [WaitOutcome.timeout] ⟨0, 0⟩
      = (ReadResult.error EINTR, [min 4 4096], ⟨0, min 4 4096⟩) ∧
    th260_read 4096 false true true 4 [WaitOutcome.signaled] ⟨0, 0⟩
      = (ReadResult.error EINTR, [min 4 4096], ⟨0, min 4 4096⟩) :=
  read_timeout_returns_eintr 4096 4 true [] ⟨0, 0⟩ (by decide) (by decide)

/-- Claim C2 counterexample: the error returned when the wait times out is
EINTR, identical to the error returned when a signal cancels the call
before progress, so the timeout error is not distinct from the Interrupted
error as the claim states. -/
theorem read_timeout_error_not_distinct :
    th260_read 4096 false true true 4 [WaitOutcome.timeout] ⟨0, 0⟩
      = (ReadResult.error EINTR, [4], ⟨0, 4⟩) ∧
    th260_read 4096 false true true 4 [WaitOutcome.signaled] ⟨0, 0⟩
      = (ReadResult.error EINTR, [4], ⟨0, 4⟩) := by
  exact ⟨rfl, rfl⟩

/-- Claim C6: a read of N bytes, 0 < N ≤ buffer capacity, whose single
chunk completes without timeout returns exactly N bytes (regardless of the
bytes_done / dmacount accounting left over from any earlier call, because
the loop head zeroes bytes_done before each chunk cycle), and a read with
count 0 returns 0 immediately without triggering any DMA. -/
theorem read_returns_exact_count (order count bd0 dc0 : Nat)
    (hpos : 0 < count) (hcap : count ≤ BUFFER_SIZE order) :
    th260_read (BUFFER_SIZE order) false true true count
        [WaitOutcome.completed false] ⟨bd0, dc0⟩
      = (ReadResult.ok count, [count], ⟨count, 0⟩) ∧
    (∀ (nb ak ck : Bool) (outs : List WaitOutcome) (c : Card),
      th260_read (BUFFER_SIZE order) nb ak ck 0 outs c = (ReadResult.ok 0, [], c)) := by
  constructor
  · have hmin : min count (BUFFER_SIZE order) = count := Nat.min_eq_left hcap
    have hne : count ≠ 0 := Nat.pos_iff_ne_zero.mp hpos
    simp [th260_read, th260_read_loop, hmin, hne]
  · intro nb ak ck outs c
    simp [th260_read]

/-- Concrete run of read_returns_exact_count: a 100-byte read against a
512 KiB buffer returns exactly 100 bytes. -/
theorem read_returns_exact_count_witness :
    th260_read (BUFFER_SIZE 7) false true true 100
        [WaitOutcome.completed false] ⟨77, 33⟩
      = (ReadResult.ok 100, [100], ⟨100, 0⟩) ∧
    (∀ (nb ak ck : Bool) (outs : List WaitOutcome) (c : Card),
      th260_read (BUFFER_SIZE 7) nb ak ck 0 outs c = (ReadResult.ok 0, [], c)) :=
  read_returns_exact_count 7 100 77 33 (by decide) (by decide)

/-- Claim C9: a read issued with O_NONBLOCK and nonzero count fails at once
with EFAULT (not the would-block code EAGAIN), whatever the access_ok
verdict on the caller buffer would have been, and with no DMA transfer
triggered. -/
theorem read_nonblock_efault (cap count : Nat) (ak ck : Bool)
    (outs : List WaitOutcome) (card : Card) (h : count ≠ 0) :
    th260_read cap true ak ck count outs card = (ReadResult.error EFAULT, [], card) ∧
    EFAULT ≠ EAGAIN := by
  constructor
  · simp [th260_read, h]
  · decide

/-- Concrete run of read_nonblock_efault: an 8-byte O_NONBLOCK read with an
unwritable buffer returns EFAULT without any DMA trigger. -/
theorem read_nonblock_efault_witness :
    th260_read 4096 true false true 8 [WaitOutcome.completed false] ⟨0, 0⟩
      = (ReadResult.error EFAULT, [], ⟨0, 0⟩) ∧
    EFAULT ≠ EAGAIN :=
  read_nonblock_efault 4096 8 false true [WaitOutcome.completed false] ⟨0, 0⟩ (by decide)

/-- Per-card state touched by th260_mmap and th260_vma_close: the busy flag
and the stored intra-page BAR offset. -/
structure MmapCard where
  busy : Bool
  bar0offset : Nat
deriving DecidableEq

/-- Result of an mmap call on the device node. -/
inductive MmapResult
  | ok
  | ebusy
  | einval
  | eagain
deriving DecidableEq

/-- th260_mmap: under the lock, fail with EBUSY if the busy flag is set,
else set it; then fail with EINVAL (clearing busy) if the requested length
exceeds PAGE_ALIGN(BAR_0_LEN); then record the intra-page offset of the
BAR physical base and remap, failing with EAGAIN (clearing busy) if
remap_pfn_range fails; on success busy stays set and the release hook is
installed. -/
def th260_mmap (c : MmapCard) (len phys : Nat) (remapOk : Bool) :
    MmapResult × MmapCard :=
  if c.busy = true then (MmapResult.ebusy, c)
  else
    let c1 : MmapCard := { c with busy := true }
    if PAGE_ALIGN BAR_0_LEN < len then (MmapResult.einval, { c1 with busy := false })
    else
      let c2 : MmapCard := { c1 with bar0offset := phys % PAGE_SIZE }
      if remapOk = false then (MmapResult.eagain, { c2 with busy := false })
      else (MmapResult.ok, c2)

/-- th260_vma_close, the release hook run when the mapping is torn down:
clears the busy flag. -/
def th260_vma_close (c : MmapCard) : MmapCard := { c with busy := false }

/-- Claim C4: mmap fails with EBUSY (never queues) when the busy flag is
already set; fails with EINVAL when the length exceeds the page-rounded
window, leaving busy clear; otherwise (remap succeeding) succeeds and sets
busy; the release hook clears busy; and the three-attempt sequence map,
map-while-active, release-then-map yields ok, EBUSY, ok — at most one
active mapping per card. -/
theorem mmap_busy_exclusive (c : MmapCard) (len phys : Nat)
    (hb : c.busy = false) (hlen : len ≤ PAGE_ALIGN BAR_0_LEN) :
    (∀ (cb : MmapCard) (len2 ph2 : Nat) (ro2 : Bool), cb.busy = true →
      th260_mmap cb len2 ph2 ro2 = (MmapResult.ebusy, cb)) ∧
    (∀ (cb : MmapCard) (len2 ph2 : Nat) (ro2 : Bool),
      cb.busy = false → PAGE_ALIGN BAR_0_LEN < len2 →
      (th260_mmap cb len2 ph2 ro2).1 = MmapResult.einval ∧
      (th260_mmap cb len2 ph2 ro2).2.busy = false) ∧
    ((th260_mmap c len phys true).1 = MmapResult.ok ∧
      (th260_mmap c len phys true).2.busy = true) ∧
    (∀ cb : MmapCard, (th260_vma_close cb).busy = false) ∧
    ((th260_mmap c len phys true).1 = MmapResult.ok ∧
      (th260_mmap (th260_mmap c len phys true).2 len phys true).1 = MmapResult.ebusy ∧
      (th260_mmap (th260_vma_close
        (th260_mmap (th260_mmap c len phys true).2 len phys true).2)
        len phys true).1 = MmapResult.ok) := by
  have hnl : ¬ PAGE_ALIGN BAR_0_LEN < len := Nat.not_lt.mpr hlen
  refine ⟨?_, ?_, ?_, ?_, ?_⟩
  · intro cb len2 ph2 ro2 hbusy
    simp [th260_mmap, hbusy]
  · intro cb len2 ph2 ro2 hbusy hlen2
    simp [th260_mmap, hbusy, hlen2]
  · simp [th260_mmap, hb, hnl]
  · intro cb
    simp [th260_vma_close]
  · refine ⟨?_, ?_, ?_⟩
    · simp [th260_mmap, hb, hnl]
    · simp [th260_mmap, hb, hnl]
    · simp [th260_mmap, th260_vma_close, hb, hnl]

/-- Concrete run of mmap_busy_exclusive: a fresh card, a full-window
mapping request. -/
theorem mmap_busy_exclusive_witness :
    (∀ (cb : MmapCard) (len2 ph2 : Nat) (ro2 : Bool), cb.busy = true →
      th260_mmap cb len2 ph2 ro2 = (MmapResult.ebusy, cb)) ∧
    (∀ (cb : MmapCard) (len2 ph2 : Nat) (ro2 : Bool),
      cb.busy = false → PAGE_ALIGN BAR_0_LEN < len2 →
      (th260_mmap cb len2 ph2 ro2).1 = MmapResult.einval ∧
      (th260_mmap cb len2 ph2 ro2).2.busy = false) ∧
    ((th260_mmap ⟨false, 0⟩ 65536 0 true).1 = MmapResult.ok ∧
      (th260_mmap ⟨false, 0⟩ 65536 0 true).2.busy = true) ∧
    (∀ cb : MmapCard, (th260_vma_close cb).busy = false) ∧
    ((th260_mmap ⟨false, 0⟩ 65536 0 true).1 = MmapResult.ok ∧
      (th260_mmap (th260_mmap ⟨false, 0⟩ 65536 0 true).2 65536 0 true).1 = MmapResult.ebusy ∧
      (th260_mmap (th260_vma_close
        (th260_mmap (th260_mmap ⟨false, 0⟩ 65536 0 true).2 65536 0 true).2)
        65536 0 true).1 = MmapResult.ok) :=
  mmap_busy_exclusive ⟨false, 0⟩ 65536 0 (by decide) (by decide)

/-- The status-clearing loop of th260_interrupt.  The handler enters with
dcsr = reads i where the completion bit is set; each iteration writes DCSR
with the interrupt-disable bit, pulses DCR reset, re-reads DCSR and loops
while the completion bit is still set.  reads gives the successive DCSR
read values; the result is the number of body executions, or none if the
bit never cleared within fuel re-reads. -/
def dcsrLoop (reads : Nat → Nat) : Nat → Nat → Option Nat
  | fuel, i =>
    if reads i &&& BUSMASTERED_READ_DONE = 0 then some 0
    else
      match fuel with
      | 0 => none
      | f + 1 => Option.map (fun n => n + 1) (dcsrLoop reads f (i + 1))

theorem dcsrLoop_stuck_bit (cap : Nat) :
    ∀ i, dcsrLoop (fun _ => BUSMASTERED_READ_DONE) cap i = none := by
  induction cap with
  | zero => intro i; simp [dcsrLoop, BUSMASTERED_READ_DONE]
  | succ f ih =>
    intro i
    have h := ih (i + 1)
    simp [dcsrLoop, BUSMASTERED_READ_DONE] at h ⊢
    exact h

/-- Claim C5 counterexample: no fixed iteration cap bounds the
status-clearing loop over all sequences of status-register values — for
the sequence that always reads the completion bit set, the loop never
exits whatever fuel it is given. -/
theorem irq_loop_unbounded :
    ¬ ∃ cap : Nat, ∀ reads : Nat → Nat,
      reads 0 &&& BUSMASTERED_READ_DONE ≠ 0 → dcsrLoop reads cap 0 ≠ none := by
  rintro ⟨cap, h⟩
  exact h (fun _ => BUSMASTERED_READ_DONE) (by decide) (dcsrLoop_stuck_bit cap 0)

theorem dcsrLoop_exits (reads : Nat → Nat) :
    ∀ fuel i, reads (i + fuel) &&& BUSMASTERED_READ_DONE = 0 →
      ∃ n, n ≤ fuel ∧ dcsrLoop reads fuel i = some n := by
  intro fuel
  induction fuel with
  | zero =>
    intro i h
    refine ⟨0, le_refl 0, ?_⟩
    simpa [dcsrLoop] using h
  | succ f ih =>
    intro i h
    by_cases h0 : reads i &&& BUSMASTERED_READ_DONE = 0
    · exact ⟨0, Nat.zero_le _, by simp [dcsrLoop, h0]⟩
    · have h2 : reads ((i + 1) + f) &&& BUSMASTERED_READ_DONE = 0 := by
        have : (i + 1) + f = i + (f + 1) := by omega
        rw [this]
        exact h
      obtain ⟨n, hn, hsome⟩ := ih (i + 1) h2
      refine ⟨n + 1, by omega, ?_⟩
      simp [dcsrLoop, h0, hsome]

/-- Claim C5 (amended): the status-clearing loop of th260_interrupt has no
fixed iteration cap; it terminates exactly when some status read shows the
completion bit clear, and if the read at index k is the first clear one the
loop exits after at most k body executions.  With fuel k it is guaranteed
to exit whenever read k is clear. -/
theorem irq_loop_terminates_on_clear (reads : Nat → Nat) (k : Nat)
    (h : reads k &&& BUSMASTERED_READ_DONE = 0) :
    ∃ n, n ≤ k ∧ dcsrLoop reads k 0 = some n := by
  have := dcsrLoop_exits reads k 0
  simp at this
  exact this h

/-- Concrete run of irq_loop_terminates_on_clear: the bit reads clear at
index 1, the loop exits after one body execution. -/
theorem irq_loop_terminates_on_clear_witness :
    ∃ n, n ≤ 1 ∧
      dcsrLoop (fun i => if i = 0 then BUSMASTERED_READ_DONE else 0) 1 0 = some n :=
  irq_loop_terminates_on_clear (fun i => if i = 0 then BUSMASTERED_READ_DONE else 0) 1
    (by decide)

/-- Decoded maximum TLP size from the transfer-capability register:
32 << ((dltrsstat >> 8) & 7). -/
def decodeMaxTlp (dltrsstat : Nat) : Nat := 32 <<< ((dltrsstat >>> 8) &&& 7)

/-- Serial number stored at attach: two 32-bit reads fill an 8-byte union
(little-endian on the x86 targets), then bytes[7] — the most significant
byte of the 64-bit value — is overwritten with 0 before the value is
stored; zeroing byte 7 of the little-endian value is reduction mod 2^56. -/
def storeSerial (lo hi : Nat) : Nat := (lo % 2 ^ 32 + hi % 2 ^ 32 * 2 ^ 32) % 2 ^ 56

/-- DMA-buffer allocation loop of th260_probe: __get_free_pages is tried at
decreasing orders from get_order(512*1024) = 7 down to 0, so fuel 8 covers
orders 7..0.  Returns the first order at which allocation succeeded. -/
def allocLoop (allocOk : Nat → Bool) : Nat → Option Nat
  | 0 => none
  | o + 1 => if allocOk o = true then some o else allocLoop allocOk o

/-- Environment oracle for one th260_probe run: whether each kernel or
hardware step succeeds, and the register values read. -/
structure ProbeEnv where
  slotFree : Bool
  cdevAddOk : Bool
  enableOk : Bool
  regionOk : Bool
  barIsMem : Bool
  ioremapOk : Bool
  serialLo : Nat
  serialHi : Nat
  dltrsstat : Nat
  allocOk : Nat → Bool
  dmaMaskOk : Bool
  irqOk : Bool

/-- Which step of th260_probe failed (each goto-error site). -/
inductive ProbeErr
  | noSlot
  | cdevAdd
  | enable
  | region
  | barType
  | ioremap
  | tlpRange
  | alloc
  | dmaMask
  | irq
deriving DecidableEq

/-- Observable resource state left behind by one th260_probe run. -/
structure ProbeState where
  drvdata : Bool
  cdevRegistered : Bool
  deviceEnabled : Bool
  regionClaimed : Bool
  barMapped : Bool
  serial : Nat
  maxtlpsize : Nat
  dmabufOrder : Nat
  dmabufAllocated : Bool
  busMaster : Bool
  irqRegistered : Bool
  nodeCreated : Bool
deriving DecidableEq

/-- The empty card slot before probe runs. -/
def initSlot : ProbeState :=
  ⟨false, false, false, false, false, 0, 0, 0, false, false, false, false⟩

/-- The error label of th260_probe: pci_set_drvdata(pdev, NULL) and
pci_disable_device(pdev), executed on every failure path. -/
def errorExit (s : ProbeState) : ProbeState :=
  { s with drvdata := false, deviceEnabled := false }

/-- th260_probe, step for step: claim a slot, register the cdev and set
drvdata, enable the device, request BAR 0, check it is a memory region,
ioremap it, read and store the serial with byte 7 zeroed, decode and
validate the maximum TLP size, reset, run the decreasing-order DMA buffer
allocation loop, set bus mastering, set the DMA masks (on failure: iounmap,
cdev_del, error), request the shared IRQ (on failure: iounmap, cdev_del,
error), and finally create the device node.  Failure paths before the DMA
mask step do cdev_del and jump to the error label without unmapping the BAR
or releasing the region. -/
def th260_probe (env : ProbeEnv) : Option ProbeErr × ProbeState :=
  if env.slotFree = false then (some ProbeErr.noSlot, errorExit initSlot)
  else if env.cdevAddOk = false then (some ProbeErr.cdevAdd, errorExit initSlot)
  else
    let s1 : ProbeState := { initSlot with cdevRegistered := true, drvdata := true }
    if env.enableOk = false then
      (some ProbeErr.enable, errorExit { s1 with cdevRegistered := false })
    else
      let s2 : ProbeState := { s1 with deviceEnabled := true }
      if env.regionOk = false then
        (some ProbeErr.region, errorExit { s2 with cdevRegistered := false })
      else
        let s3 : ProbeState := { s2 with regionClaimed := true }
        if env.barIsMem = false then
          (some ProbeErr.barType, errorExit { s3 with cdevRegistered := false })
        else if env.ioremapOk = false then
          (some ProbeErr.ioremap, errorExit { s3 with cdevRegistered := false })
        else
          let s4 : ProbeState :=
            { s3 with
                barMapped := true,
                serial := storeSerial env.serialLo env.serialHi,
                maxtlpsize := decodeMaxTlp env.dltrsstat }
          if decodeMaxTlp env.dltrsstat < 32 ∨ 4096 < decodeMaxTlp env.dltrsstat then
            (some ProbeErr.tlpRange, errorExit { s4 with cdevRegistered := false })
          else
            match allocLoop env.allocOk 8 with
            | none =>
              (some ProbeErr.alloc,
               errorExit { s4 with cdevRegistered := false, dmabufOrder := 0 })
            | some o =>
              let s5 : ProbeState :=
                { s4 with dmabufOrder := o, dmabufAllocated := true, busMaster := true }
              if env.dmaMaskOk = false then
                (some ProbeErr.dmaMask,
                 errorExit { s5 with barMapped := false, cdevRegistered := false })
              else if env.irqOk = false then
                (some ProbeErr.irq,
                 errorExit { s5 with barMapped := false, cdevRegistered := false })
              else (none, { s5 with irqRegistered := true, nodeCreated := true })

theorem decodeMaxTlp_ge (d : Nat) : 32 ≤ decodeMaxTlp d := by
  unfold decodeMaxTlp
  rw [Nat.shiftLeft_eq]
  calc (32 : Nat) = 32 * 1 := by norm_num
    _ ≤ 32 * 2 ^ ((d >>> 8) &&& 7) :=
      Nat.mul_le_mul_left 32 (Nat.one_le_two_pow)

theorem decodeMaxTlp_le (d : Nat) : decodeMaxTlp d ≤ 4096 := by
  unfold decodeMaxTlp
  rw [Nat.shiftLeft_eq]
  have hk : (d >>> 8) &&& 7 ≤ 7 := Nat.and_le_right
  calc 32 * 2 ^ ((d >>> 8) &&& 7) ≤ 32 * 2 ^ 7 :=
      Nat.mul_le_mul_left 32 (Nat.pow_le_pow_right (by norm_num) hk)
    _ = 4096 := by norm_num

theorem allocLoop_none_of_fail (allocOk : Nat → Bool) (h : ∀ o, allocOk o = false) :
    ∀ fuel, allocLoop allocOk fuel = none := by
  intro fuel
  induction fuel with
  | zero => rfl
  | succ o ih => simp [allocLoop, h o, ih]

/-- Claim C3 (amended): if DMA-buffer allocation fails at every attempted
order, attach fails: no device node is created, no interrupt handler is
registered, the character-device registration is undone, the PCI device is
disabled and the buffer is not held — but the register window stays mapped
and the claimed memory region stays claimed; the unwind of completed steps
is incomplete. -/
theorem probe_alloc_fail_incomplete_unwind (env : ProbeEnv)
    (h1 : env.slotFree = true) (h2 : env.cdevAddOk = true) (h3 : env.enableOk = true)
    (h4 : env.regionOk = true) (h5 : env.barIsMem = true) (h6 : env.ioremapOk = true)
    (hall : ∀ o, env.allocOk o = false) :
    (th260_probe env).1 = some ProbeErr.alloc ∧
    (th260_probe env).2.nodeCreated = false ∧
    (th260_probe env).2.irqRegistered = false ∧
    (th260_probe env).2.cdevRegistered = false ∧
    (th260_probe env).2.deviceEnabled = false ∧
    (th260_probe env).2.dmabufAllocated = false ∧
    (th260_probe env).2.barMapped = true ∧
    (th260_probe env).2.regionClaimed = true := by
  have htlp : ¬ (decodeMaxTlp env.dltrsstat < 32 ∨ 4096 < decodeMaxTlp env.dltrsstat) := by
    have hg := decodeMaxTlp_ge env.dltrsstat
    have hl := decodeMaxTlp_le env.dltrsstat
    omega
  have halloc := allocLoop_none_of_fail env.allocOk hall 8
  simp [th260_probe, h1, h2, h3, h4, h5, h6, htlp, halloc, errorExit, initSlot]

/-- Concrete environment in which every allocation order fails. -/
def cenvAllocFail : ProbeEnv :=
  ⟨true, true, true, true, true, true, 825373492, 892745528, 256, fun _ => false,
   true, true⟩

/-- Claim C3 counterexample: with allocation failing at every order, attach
fails at the alloc step yet the register window is still mapped afterwards
(the alloc failure path does cdev_del and goto error but never iounmap), so
the previously mapped register window is not unmapped as the claim states. -/
theorem probe_alloc_fail_leaves_bar_mapped :
    (th260_probe cenvAllocFail).1 = some ProbeErr.alloc ∧
    (th260_probe cenvAllocFail).2.barMapped = true ∧
    (th260_probe cenvAllocFail).2.regionClaimed = true := by
  refine ⟨rfl, rfl, rfl⟩

theorem probe_never_tlpRange (env : ProbeEnv) :
    (th260_probe env).1 ≠ some ProbeErr.tlpRange := by
  have htlp : ¬ (decodeMaxTlp env.dltrsstat < 32 ∨ 4096 < decodeMaxTlp env.dltrsstat) := by
    have hg := decodeMaxTlp_ge env.dltrsstat
    have hl := decodeMaxTlp_le env.dltrsstat
    omega
  simp only [th260_probe]
  rcases hAl : allocLoop env.allocOk 8 with _ | o <;> split_ifs <;> simp_all

/-- Claim C7 (amended): the decoded maximum TLP size 32 << ((reg >> 8) & 7)
lies in [32, 4096] for every 32-bit capability-register value, so the
out-of-range validation in th260_probe can never fire: no register contents
(in particular none reporting 8 or 8192) can make attach fail at the TLP
validation step. -/
theorem maxtlp_decode_always_in_range (env : ProbeEnv) :
    32 ≤ decodeMaxTlp env.dltrsstat ∧ decodeMaxTlp env.dltrsstat ≤ 4096 ∧
    (th260_probe env).1 ≠ some ProbeErr.tlpRange :=
  ⟨decodeMaxTlp_ge _, decodeMaxTlp_le _, probe_never_tlpRange env⟩

/-- Claim C7 counterexample: there is no capability-register value at all
whose decoded maximum TLP size falls outside [32, 4096], and no probe
environment in which attach fails at the TLP validation step — the claim
presumes such register contents (8 or 8192) exist. -/
theorem maxtlp_range_check_unreachable :
    (¬ ∃ d : Nat, decodeMaxTlp d < 32 ∨ 4096 < decodeMaxTlp d) ∧
    (¬ ∃ env : ProbeEnv, (th260_probe env).1 = some ProbeErr.tlpRange) := by
  constructor
  · rintro ⟨d, hd⟩
    have hg := decodeMaxTlp_ge d
    have hl := decodeMaxTlp_le d
    omega
  · rintro ⟨env, henv⟩
    exact probe_never_tlpRange env henv

/-- The ioctl commands of the driver. -/
inductive IoctlCmd
  | getVersion
  | getSerial
  | getBarOffs
  | unknown
deriving DecidableEq

/-- DRVVERSION = (1 << 24) + (0 << 16) + (0 << 8) + 0. -/
def DRVVERSION : Nat := 1 <<< 24

/-- th260_ioctl: each command checks _access_ok on the destination (EFAULT
when it fails) and then copy_to_user (EACCES when it fails); GET_VERSION
returns DRVVERSION, GET_SERIAL the stored 64-bit serial, GET_BAROFFS the
stored intra-page BAR offset; an unknown command is EINVAL.  The result is
the value copied out, or the errno. -/
def th260_ioctl (serial bar0offset : Nat) (cmd : IoctlCmd) (accessOk copyOk : Bool) :
    Except Nat Nat :=
  match cmd with
  | IoctlCmd.getVersion =>
    if accessOk = false then Except.error EFAULT
    else if copyOk = false then Except.error EACCES
    else Except.ok DRVVERSION
  | IoctlCmd.getSerial =>
    if accessOk = false then Except.error EFAULT
    else if copyOk = false then Except.error EACCES
    else Except.ok serial
  | IoctlCmd.getBarOffs =>
    if accessOk = false then Except.error EFAULT
    else if copyOk = false then Except.error EACCES
    else Except.ok bar0offset
  | IoctlCmd.unknown => Except.error EINVAL

theorem storeSerial_lt (lo hi : Nat) : storeSerial lo hi < 2 ^ 56 :=
  Nat.mod_lt _ (by norm_num)

set_option maxHeartbeats 2000000 in
/-- Claim C10: the 64-bit serial stored at attach always has most
significant byte zero — the probe path overwrites byte 7 of the value
assembled from the two 32-bit register reads before storing it — so on any
successfully attached card the GET_SERIAL ioctl returns a value whose top
byte is zero, for every pair of register contents. -/
theorem serial_top_byte_zero (env : ProbeEnv) (s : ProbeState) (bar : Nat)
    (h : th260_probe env = (none, s)) :
    s.serial = storeSerial env.serialLo env.serialHi ∧
    s.serial / 2 ^ 56 = 0 ∧
    th260_ioctl s.serial bar IoctlCmd.getSerial true true = Except.ok s.serial := by
  have hser : s.serial = storeSerial env.serialLo env.serialHi := by
    unfold th260_probe at h
    rcases hAl : allocLoop env.allocOk 8 with _ | o <;> rw [hAl] at h <;>
      split_ifs at h <;>
      try exact Option.noConfusion (congrArg Prod.fst h)
    injection h with hf hs
    rw [← hs]
  refine ⟨hser, ?_, by simp [th260_ioctl]⟩
  rw [hser]
  exact Nat.div_eq_of_lt (storeSerial_lt _ _)

/-- Concrete successful probe environment: every setup step succeeds, the
upper serial register read has a nonzero top byte (0xFF343332). -/
def cenvOk : ProbeEnv :=
  ⟨true, true, true, true, true, true, 825373492, 4281676594, 0, fun _ => true,
   true, true⟩

/-- Concrete run of serial_top_byte_zero on cenvOk. -/
theorem serial_top_byte_zero_witness :
    (th260_probe cenvOk).2.serial = storeSerial cenvOk.serialLo cenvOk.serialHi ∧
    (th260_probe cenvOk).2.serial / 2 ^ 56 = 0 ∧
    th260_ioctl (th260_probe cenvOk).2.serial 0 IoctlCmd.getSerial true true
      = Except.ok (th260_probe cenvOk).2.serial :=
  serial_top_byte_zero cenvOk (th260_probe cenvOk).2 0 rfl

/-- Slot state seen by th260_remove: whether pci_get_drvdata yields the
card, whether the slot's pci_dev pointer is still set, and whether the
cdev and dmabuf pointers are non-null.  th260_remove clears only pci_dev
(via th260_cdev_del); drvdata, cdev and dmabuf keep their stale values. -/
structure RemoveState where
  drvdata : Bool
  pciDevSet : Bool
  cdevSet : Bool
  dmabufSet : Bool
deriving DecidableEq

/-- The teardown actions th260_remove can perform, in program order. -/
inductive TeardownAct
  | cdevDel
  | nodeDestroy
  | reset
  | freeIrq
  | iounmap
  | releaseRegion
  | freePages
  | slotClear
deriving DecidableEq

/-- The full teardown sequence of th260_remove: cdev_del when the cdev
pointer is set, device_destroy, th260_reset, free_irq, iounmap,
pci_release_region, free_pages when the dmabuf pointer is set, and
th260_cdev_del clearing the slot. -/
def fullTeardown (cdevSet dmabufSet : Bool) : List TeardownAct :=
  (if cdevSet = true then [TeardownAct.cdevDel] else []) ++
  [TeardownAct.nodeDestroy, TeardownAct.reset, TeardownAct.freeIrq,
   TeardownAct.iounmap, TeardownAct.releaseRegion] ++
  (if dmabufSet = true then [TeardownAct.freePages] else []) ++
  [TeardownAct.slotClear]

/-- th260_remove: bail out silently when pci_get_drvdata is NULL or when
the slot's pci_dev is already NULL; otherwise perform the teardown sequence
and clear pci_dev. -/
def th260_remove (s : RemoveState) : RemoveState × List TeardownAct :=
  if s.drvdata = false then (s, [])
  else if s.pciDevSet = false then (s, [])
  else ({ s with pciDevSet := false }, fullTeardown s.cdevSet s.dmabufSet)

/-- Claim C8: detach is idempotent — on an attached card th260_remove
performs the hardware teardown sequence exactly once and clears the slot's
pci_dev pointer; a second call, seeing pci_dev already cleared, performs no
action at all and leaves the state unchanged. -/
theorem remove_teardown_once (s : RemoveState)
    (h1 : s.drvdata = true) (h2 : s.pciDevSet = true) :
    (th260_remove s).2 = fullTeardown s.cdevSet s.dmabufSet ∧
    th260_remove (th260_remove s).1 = ((th260_remove s).1, []) := by
  simp [th260_remove, h1, h2]

/-- Concrete run of remove_teardown_once on a fully attached card. -/
theorem remove_teardown_once_witness :
    (th260_remove ⟨true, true, true, true⟩).2 = fullTeardown true true ∧
    th260_remove (th260_remove ⟨true, true, true, true⟩).1
      = ((th260_remove ⟨true, true, true, true⟩).1, []) :=
  remove_teardown_once ⟨true, true, true, true⟩ (by decide) (by decide)

/-- Concrete run of probe_alloc_fail_incomplete_unwind on cenvAllocFail. -/
theorem probe_alloc_fail_incomplete_unwind_witness :
    (th260_probe cenvAllocFail).1 = some ProbeErr.alloc ∧
    (th260_probe cenvAllocFail).2.nodeCreated = false ∧
    (th260_probe cenvAllocFail).2.irqRegistered = false ∧
    (th260_probe cenvAllocFail).2.cdevRegistered = false ∧
    (th260_probe cenvAllocFail).2.deviceEnabled = false ∧
    (th260_probe cenvAllocFail).2.dmabufAllocated = false ∧
    (th260_probe cenvAllocFail).2.barMapped = true ∧
    (th260_probe cenvAllocFail).2.regionClaimed = true :=
  probe_alloc_fail_incomplete_unwind cenvAllocFail rfl rfl rfl rfl rfl rfl
    (fun _ => rfl)
